import Mathlib

/-
Verification of the session state machine and streaming accumulator of the
AI prompt generator app (src/src/App.tsx). The React component state is
embedded as an explicit record `AppState`; each handler becomes a pure
function from the pre-state (plus the outcome of the external streaming
call, given as data) to the post-state.
-/

/-- Role of a chat message, from the ChatMessage interface. -/
inductive Role where
  | user
  | model
deriving DecidableEq, Repr

/-- ChatMessage record: role plus textual content. -/
structure ChatMessage where
  role : Role
  content : String
deriving DecidableEq, Repr

/-- AccessLevel enumeration from App.tsx. -/
inductive AccessLevel where
  | none
  | client
  | admin
deriving DecidableEq, Repr

/-- Which chat tab is active, from the ActiveTab type. -/
inductive ActiveTab where
  | refine
  | test
deriving DecidableEq, Repr

/-- AdminSettings record: the client access secret and the gate toggle. -/
structure AdminSettings where
  accessSecret : String
  isGateEnabled : Bool
deriving DecidableEq, Repr

/-- HistoryItem record, created once per completed generation. -/
structure HistoryItem where
  id : String
  prompt : String
  timestamp : Nat
  userInput : String
  tone : String
  targetAudience : String
deriving DecidableEq, Repr

/-- Outcome of one external streaming call: either the full ordered list of
text fragments, or the fragments delivered before a mid-stream failure
together with the failure message (a rejected initial request is a failure
with the empty fragment list). -/
inductive StreamOutcome where
  | success (fragments : List String)
  | failure (fragments : List String) (errMsg : String)
deriving DecidableEq, Repr

/-- The component state of App: generated prompt, loading flags, error,
history, the two chat threads, the refine-prompt anchor ref, and the test
chat handle (modelled as the system instruction it was created with, or
none when invalidated). -/
structure AppState where
  generatedPrompt : String
  isLoading : Bool
  error : Option String
  history : List HistoryItem
  activeTab : ActiveTab
  chatHistory : List ChatMessage
  isChatLoading : Bool
  originalPromptForChat : String
  testChatHistory : List ChatMessage
  isTestChatLoading : Bool
  testChatRef : Option String
deriving DecidableEq, Repr

/-- The fixed admin unlock code (ADMIN_CODE in App.tsx). -/
def ADMIN_CODE : String := "admin-unlock-righteye"

/-- Error message shown when the backend client is not configured. -/
def noAIError : String := "AI client not initialized. Please configure your API key."

/-- Ordered concatenation of a list of fragments (empty list gives ""). -/
def concatFragments (fragments : List String) : String :=
  fragments.foldl (fun r s => r ++ s) ""

/-- The streaming accumulation loop shared by prompt generation and chat
turns: each truthy (nonempty) chunk is appended to the local accumulator
and to the published UI value; falsy chunks are skipped, mirroring the
`if (chunkText)` guard. Returns (final accumulator, last published value). -/
def streamFold (fragments : List String) (acc published : String) : String × String :=
  match fragments with
  | [] => (acc, published)
  | c :: rest =>
      if c = "" then streamFold rest acc published
      else streamFold rest (acc ++ c) (published ++ c)

/-- JavaScript String.prototype.padStart(2, '0'): prepend zeros until the
length is at least 2. -/
def padStart2 (s : String) : String :=
  if s.length < 2 then String.mk (List.replicate (2 - s.length) '0') ++ s else s

/-- getClientCode from the AccessGate component: secret ++ "-" ++ zero-padded
day ++ "-" ++ zero-padded calendar month ++ "-" ++ full year. -/
def getClientCode (secret : String) (day month year : Nat) : String :=
  secret ++ "-" ++ padStart2 (toString day) ++ "-" ++ padStart2 (toString month)
    ++ "-" ++ toString year

/-- Result of submitting a code at the access gate: either a granted level or
a rejection with the displayed error message (access level stays none). -/
inductive GateResult where
  | granted (level : AccessLevel)
  | rejected (errMsg : String)
deriving DecidableEq, Repr

/-- handleSubmit of AccessGate: admin code first, then the date-derived
client code, otherwise the visible error. -/
def handleSubmitGate (code : String) (settings : AdminSettings)
    (day month year : Nat) : GateResult :=
  if code = ADMIN_CODE then .granted .admin
  else if code = getClientCode settings.accessSecret day month year then .granted .client
  else .rejected "Invalid access code."

/-- The user-visible entry points of the access gate screen: the code form,
and the guest button. -/
inductive GateAction where
  | submitCode (code : String)
  | continueAsGuest
deriving DecidableEq, Repr

/-- Whether a gate action is rendered/available: the form always is; the
guest button only when the gate is disabled. -/
def gateActionAvailable (settings : AdminSettings) : GateAction → Bool
  | .submitCode _ => true
  | .continueAsGuest => !settings.isGateEnabled

/-- What each available gate action does: submit runs handleSubmit, the guest
button calls setAccessLevel('client') directly. -/
def gateOutcome (settings : AdminSettings) (day month year : Nat) :
    GateAction → GateResult
  | .submitCode code => handleSubmitGate code settings day month year
  | .continueAsGuest => .granted .client

/-- resetChatStates: empties both chat threads, nulls the test chat handle,
returns to the refine tab, and clears the error. -/
def resetChatStates (s : AppState) : AppState :=
  { s with chatHistory := [], testChatHistory := [], testChatRef := Option.none,
           activeTab := .refine, error := Option.none }

/-- The prefix of handleGeneratePrompt run before any fragment is consumed
(once the backend client exists): set loading, clear error and prompt, and
reset the chat states. -/
def beginGeneration (s : AppState) : AppState :=
  resetChatStates { s with isLoading := true, error := Option.none, generatedPrompt := "" }

/-- History insertion at the end of a successful generation:
`[newItem, ...prev.slice(0, 49)]`. -/
def insertHistoryItem (item : HistoryItem) (prev : List HistoryItem) : List HistoryItem :=
  item :: prev.take 49

/-- Inserting a sequence of items in order, oldest first. -/
def insertAll (items : List HistoryItem) (h : List HistoryItem) : List HistoryItem :=
  items.foldl (fun acc it => insertHistoryItem it acc) h

/-- The try/catch/finally body of handleGeneratePrompt, run from the state
produced by beginGeneration: on success the accumulated text becomes the
prompt and the anchor, and a HistoryItem is prepended; on failure the error
is set; either way loading ends. -/
def consumeGeneration (s1 : AppState) (input genTone genAudience newId : String)
    (now : Nat) : StreamOutcome → AppState
  | .success frags =>
      { s1 with
          generatedPrompt := (streamFold frags "" "").2,
          originalPromptForChat := (streamFold frags "" "").1,
          history := insertHistoryItem
            ⟨newId, (streamFold frags "" "").1, now, input, genTone, genAudience⟩
            s1.history,
          isLoading := false }
  | .failure frags msg =>
      { s1 with
          generatedPrompt := (streamFold frags "" "").2,
          error := Option.some msg,
          isLoading := false }

/-- handleGeneratePrompt: fail fast when no backend client is configured,
otherwise reset and consume the stream outcome. `hasAI` is whether the
memoized GoogleGenAI client is non-null; `newId` and `now` stand for
crypto.randomUUID() and Date.now(). -/
def handleGeneratePrompt (s : AppState) (hasAI : Bool)
    (input genTone genAudience newId : String) (now : Nat)
    (outcome : StreamOutcome) : AppState :=
  if hasAI then
    consumeGeneration (beginGeneration s) input genTone genAudience newId now outcome
  else { s with error := Option.some noAIError }

/-- Overwrite the content of the last message of a thread, mirroring
`newHistory[newHistory.length - 1].content = ...`. -/
def setLastContent : List ChatMessage → String → List ChatMessage
  | [], _ => []
  | [m], c => [{ m with content := c }]
  | m :: m2 :: rest, c => m :: setLastContent (m2 :: rest) c

/-- handleSendMessage (refine chat): append the user message and an empty
model placeholder, then stream into the placeholder; on success the final
text also becomes the canonical prompt and the anchor; on failure the
placeholder content becomes "Error: " ++ message and prompt/anchor are
untouched. -/
def handleSendMessage (s : AppState) (hasAI : Bool) (message : String)
    (outcome : StreamOutcome) : AppState :=
  if hasAI then
    let hist1 := s.chatHistory ++ [⟨.user, message⟩, ⟨.model, ""⟩]
    match outcome with
    | .success frags =>
        { s with
            chatHistory := setLastContent hist1 (streamFold frags "" "").1,
            generatedPrompt := (streamFold frags "" "").1,
            originalPromptForChat := (streamFold frags "" "").1,
            isChatLoading := false }
    | .failure frags msg =>
        { s with
            chatHistory :=
              setLastContent (setLastContent hist1 (streamFold frags "" "").1)
                ("Error: " ++ msg),
            isChatLoading := false }
  else { s with error := Option.some noAIError }

/-- handleClearHistoryItem: `prev.filter(item => item.id !== id)`. -/
def handleClearHistoryItem (i : String) (history : List HistoryItem) : List HistoryItem :=
  history.filter (fun item => item.id != i)

/-- handleClearTestChat: empty the test thread and null its handle. -/
def handleClearTestChat (s : AppState) : AppState :=
  { s with testChatHistory := [], testChatRef := Option.none }

/-- concatFragments over a cons: the foldl starts from the first fragment. -/
theorem foldl_append_eq (frags : List String) (a : String) :
    frags.foldl (fun r s => r ++ s) a = a ++ concatFragments frags := by
  induction frags generalizing a with
  | nil => simp [concatFragments, String.append_empty]
  | cons c rest ih =>
      simp only [List.foldl_cons, concatFragments]
      rw [ih (a ++ c), ih ("" ++ c), String.empty_append, String.append_assoc]

/-- Unfolding concatFragments on a cons cell. -/
theorem concatFragments_cons (c : String) (rest : List String) :
    concatFragments (c :: rest) = c ++ concatFragments rest := by
  show rest.foldl (fun r s => r ++ s) ("" ++ c) = c ++ concatFragments rest
  rw [foldl_append_eq, String.empty_append]

/-- The streaming loop accumulates exactly the ordered concatenation of the
fragments on both the local accumulator and the published value. -/
theorem streamFold_eq (frags : List String) (a p : String) :
    streamFold frags a p = (a ++ concatFragments frags, p ++ concatFragments frags) := by
  induction frags generalizing a p with
  | nil => simp [streamFold, concatFragments, String.append_empty]
  | cons c rest ih =>
      rw [streamFold, concatFragments_cons]
      by_cases hc : c = ""
      · subst hc
        rw [if_pos rfl, ih, String.empty_append]
      · rw [if_neg hc, ih, String.append_assoc, String.append_assoc]

/-- Taking n of an append where the right part is already truncated to n. -/
theorem take_append_take {α : Type} (a b : List α) (n : Nat) :
    (a ++ b.take n).take n = (a ++ b).take n := by
  rw [List.take_append_eq_append_take, List.take_append_eq_append_take,
      List.take_take, Nat.min_eq_left (Nat.sub_le n a.length)]

/-- insertHistoryItem written as a single take of a cons. -/
theorem insertHistoryItem_eq (item : HistoryItem) (prev : List HistoryItem) :
    insertHistoryItem item prev = (item :: prev).take 50 := rfl

/-- Folding insertions of a nonempty batch is a take of the reversed batch
prepended to the prior history. -/
theorem insertAll_eq (items : List HistoryItem) (h : List HistoryItem)
    (hne : items ≠ []) : insertAll items h = (items.reverse ++ h).take 50 := by
  induction items generalizing h with
  | nil => exact absurd rfl hne
  | cons i rest ih =>
      cases rest with
      | nil => simp [insertAll, insertHistoryItem_eq]
      | cons j rest2 =>
          have step : insertAll (i :: j :: rest2) h =
              insertAll (j :: rest2) (insertHistoryItem i h) := rfl
          rw [step, ih (insertHistoryItem i h) (by simp), insertHistoryItem_eq,
              take_append_take ((j :: rest2).reverse) (i :: h) 50]
          simp

/-- Overwriting the last content of a thread that ends in a known message. -/
theorem setLastContent_concat (l : List ChatMessage) (m : ChatMessage) (c : String) :
    setLastContent (l ++ [m]) c = l ++ [{ m with content := c }] := by
  induction l with
  | nil => rfl
  | cons x rest ih =>
      cases rest with
      | nil => rfl
      | cons y rest2 =>
          exact congrArg (List.cons x) ih

/-- Setting the last content of a thread that ends in two known messages. -/
theorem setLastContent_pair (l : List ChatMessage) (m1 m2 : ChatMessage) (c : String) :
    setLastContent (l ++ [m1, m2]) c = l ++ [m1, { m2 with content := c }] := by
  have h := setLastContent_concat (l ++ [m1]) m2 c
  simpa using h

/-- Claim C1: for every finite sequence of fragments consumed by a streaming
accumulation loop, the final accumulated string equals the ordered
concatenation of all fragments, the last value published to the UI state
equals that final string, and an empty sequence yields the empty string; in
particular a successful generation leaves generatedPrompt equal to that
concatenation, and a successful refine turn leaves both the last thread
message and generatedPrompt equal to it. -/
theorem streamAccumulator_spec (frags : List String) :
    (streamFold frags "" "").1 = concatFragments frags ∧
    (streamFold frags "" "").2 = (streamFold frags "" "").1 ∧
    concatFragments ([] : List String) = "" ∧
    (∀ (s : AppState) (input genTone genAudience newId : String) (now : Nat),
      (handleGeneratePrompt s true input genTone genAudience newId now
        (.success frags)).generatedPrompt = concatFragments frags) ∧
    (∀ (s : AppState) (message : String),
      (handleSendMessage s true message (.success frags)).chatHistory.getLast? =
        Option.some ⟨.model, concatFragments frags⟩ ∧
      (handleSendMessage s true message (.success frags)).generatedPrompt =
        concatFragments frags) := by
  have h1 : (streamFold frags "" "").1 = concatFragments frags := by
    rw [streamFold_eq, String.empty_append]
  have h2 : (streamFold frags "" "").2 = (streamFold frags "" "").1 := by
    rw [streamFold_eq]
  refine ⟨h1, h2, rfl, ?_, ?_⟩
  · intro s input genTone genAudience newId now
    show (streamFold frags "" "").2 = concatFragments frags
    rw [h2, h1]
  · intro s message
    constructor
    · show (setLastContent (s.chatHistory ++ [⟨.user, message⟩, ⟨.model, ""⟩])
        (streamFold frags "" "").1).getLast? = Option.some ⟨.model, concatFragments frags⟩
      rw [h1, setLastContent_pair]
      simp
    · show (streamFold frags "" "").1 = concatFragments frags
      exact h1

/-- Claim C3: for every prior state, starting a new prompt generation (with a
configured backend) factors through beginGeneration, and beginGeneration
resets both chat threads to the empty list and nulls the test conversation
handle, before any fragment of the stream outcome is consumed. -/
theorem generation_resets_chat_spec (s : AppState) :
    (beginGeneration s).chatHistory = [] ∧
    (beginGeneration s).testChatHistory = [] ∧
    (beginGeneration s).testChatRef = Option.none ∧
    (∀ (input genTone genAudience newId : String) (now : Nat) (outcome : StreamOutcome),
      handleGeneratePrompt s true input genTone genAudience newId now outcome =
        consumeGeneration (beginGeneration s) input genTone genAudience newId now outcome) :=
  ⟨rfl, rfl, rfl, fun _ _ _ _ _ _ => rfl⟩

/-- Claim C7: when no backend client is configured, handleGeneratePrompt sets
the user-visible error and returns without entering the generating state:
the loading flag, history, both chat threads, the test handle and the prompt
are untouched, and the result does not depend on any stream outcome (no
stream is requested). -/
theorem generate_no_backend_spec (s : AppState)
    (input genTone genAudience newId : String) (now : Nat)
    (outcome outcome2 : StreamOutcome) :
    (handleGeneratePrompt s false input genTone genAudience newId now outcome).error
        = Option.some noAIError ∧
    (handleGeneratePrompt s false input genTone genAudience newId now outcome).isLoading
        = s.isLoading ∧
    (handleGeneratePrompt s false input genTone genAudience newId now outcome).history
        = s.history ∧
    (handleGeneratePrompt s false input genTone genAudience newId now outcome).chatHistory
        = s.chatHistory ∧
    (handleGeneratePrompt s false input genTone genAudience newId now outcome).testChatHistory
        = s.testChatHistory ∧
    (handleGeneratePrompt s false input genTone genAudience newId now outcome).testChatRef
        = s.testChatRef ∧
    (handleGeneratePrompt s false input genTone genAudience newId now outcome).generatedPrompt
        = s.generatedPrompt ∧
    handleGeneratePrompt s false input genTone genAudience newId now outcome
        = handleGeneratePrompt s false input genTone genAudience newId now outcome2 :=
  ⟨rfl, rfl, rfl, rfl, rfl, rfl, rfl, rfl⟩

/-- Claim C9: for every state, handleClearTestChat empties the test thread
and nulls the test conversation handle, while the refine thread, the
canonical prompt, the refine anchor, and the history are all unchanged. -/
theorem clearTestThread_spec (s : AppState) :
    (handleClearTestChat s).testChatHistory = [] ∧
    (handleClearTestChat s).testChatRef = Option.none ∧
    (handleClearTestChat s).chatHistory = s.chatHistory ∧
    (handleClearTestChat s).generatedPrompt = s.generatedPrompt ∧
    (handleClearTestChat s).originalPromptForChat = s.originalPromptForChat ∧
    (handleClearTestChat s).history = s.history :=
  ⟨rfl, rfl, rfl, rfl, rfl, rfl⟩

/-- Claim C2: for every prior history list, a completed generation prepends
the new HistoryItem at the front of the history, the resulting length never
exceeds 50, and inserting more than 50 items in sequence leaves exactly the
50 most recently inserted items, newest first (oldest evicted). -/
theorem history_cap_spec (s : AppState) (input genTone genAudience newId : String)
    (now : Nat) (frags : List String) (item : HistoryItem)
    (prev items : List HistoryItem) (hlen : 50 < items.length) :
    (handleGeneratePrompt s true input genTone genAudience newId now
        (.success frags)).history
      = insertHistoryItem
          ⟨newId, (streamFold frags "" "").1, now, input, genTone, genAudience⟩
          s.history ∧
    (insertHistoryItem item prev).head? = Option.some item ∧
    (insertHistoryItem item prev).length ≤ 50 ∧
    insertAll items prev = items.reverse.take 50 := by
  refine ⟨rfl, rfl, ?_, ?_⟩
  · have hle := List.length_take_le 49 prev
    simp only [insertHistoryItem, List.length_cons]
    omega
  · have hne : items ≠ [] := by
      intro he
      rw [he] at hlen
      exact absurd hlen (by decide)
    rw [insertAll_eq items prev hne,
        List.take_append_of_le_length (by rw [List.length_reverse]; omega)]

/-- A batch of 51 distinct history items for the history-cap witness. -/
def manyItems : List HistoryItem :=
  (List.range 51).map (fun n => ⟨toString n, "", n, "", "", ""⟩)

/-- Witness for claim C2 at a concrete state and a batch of 51 items. -/
theorem history_cap_spec_witness :
    50 < manyItems.length ∧
    ((handleGeneratePrompt
        ⟨"", false, Option.none, [], .refine, [], false, "", [], false, Option.none⟩
        true "i" "t" "a" "id" 0 (.success ["x"])).history
      = insertHistoryItem ⟨"id", (streamFold ["x"] "" "").1, 0, "i", "t", "a"⟩
          (⟨"", false, Option.none, [], .refine, [], false, "", [], false,
            Option.none⟩ : AppState).history ∧
     (insertHistoryItem ⟨"w", "", 0, "", "", ""⟩ []).head?
        = Option.some ⟨"w", "", 0, "", "", ""⟩ ∧
     (insertHistoryItem ⟨"w", "", 0, "", "", ""⟩ []).length ≤ 50 ∧
     insertAll manyItems [] = manyItems.reverse.take 50) :=
  ⟨by decide,
   history_cap_spec
     ⟨"", false, Option.none, [], .refine, [], false, "", [], false, Option.none⟩
     "i" "t" "a" "id" 0 ["x"] ⟨"w", "", 0, "", "", ""⟩ [] manyItems (by decide)⟩

/-- A concrete pre-state holding a previous prompt, used to refute claim C5
as stated. -/
def preFailureState : AppState :=
  ⟨"old prompt", false, Option.none, [], .refine, [], false, "old prompt",
   [], false, Option.none⟩

/-- Claim C5 counterexample: a generation whose stream fails after delivering
one fragment leaves the partial output as the canonical prompt, so the
prompt is changed by the failed call and partial output is retained. -/
theorem generation_failure_counterexample :
    (handleGeneratePrompt preFailureState true "d" "t" "a" "id" 0
        (.failure ["partial"] "boom")).generatedPrompt = "partial" ∧
    (handleGeneratePrompt preFailureState true "d" "t" "a" "id" 0
        (.failure ["partial"] "boom")).generatedPrompt
      ≠ preFailureState.generatedPrompt := by
  constructor
  · decide
  · decide

/-- Claim C5 amended: for every generation call whose stream rejects or fails
mid-stream, the machine returns to the idle (not-loading) state with the
error message set and no HistoryItem appended; the generated prompt is
cleared on entry and afterwards holds the partial accumulation of the
fragments received before the failure (empty when none arrived). -/
theorem generation_failure_spec (s : AppState)
    (input genTone genAudience newId : String) (now : Nat)
    (frags : List String) (msg : String) :
    (handleGeneratePrompt s true input genTone genAudience newId now
        (.failure frags msg)).isLoading = false ∧
    (handleGeneratePrompt s true input genTone genAudience newId now
        (.failure frags msg)).error = Option.some msg ∧
    (handleGeneratePrompt s true input genTone genAudience newId now
        (.failure frags msg)).history = s.history ∧
    (handleGeneratePrompt s true input genTone genAudience newId now
        (.failure frags msg)).generatedPrompt = concatFragments frags := by
  refine ⟨rfl, rfl, rfl, ?_⟩
  show (streamFold frags "" "").2 = concatFragments frags
  rw [streamFold_eq, String.empty_append]

/-- Claim C6: for every refine-chat turn whose stream fails, the most
recently appended model placeholder ends up with content "Error: " followed
by the failure message, while the canonical prompt and the refine anchor
are unchanged. -/
theorem refine_failure_spec (s : AppState) (message : String)
    (frags : List String) (msg : String) :
    (handleSendMessage s true message (.failure frags msg)).chatHistory.getLast?
        = Option.some ⟨.model, "Error: " ++ msg⟩ ∧
    (handleSendMessage s true message (.failure frags msg)).generatedPrompt
        = s.generatedPrompt ∧
    (handleSendMessage s true message (.failure frags msg)).originalPromptForChat
        = s.originalPromptForChat := by
  refine ⟨?_, rfl, rfl⟩
  show (setLastContent
          (setLastContent (s.chatHistory ++ [⟨.user, message⟩, ⟨.model, ""⟩])
            (streamFold frags "" "").1)
          ("Error: " ++ msg)).getLast?
      = Option.some ⟨.model, "Error: " ++ msg⟩
  rw [setLastContent_pair, setLastContent_pair]
  simp

/-- In a history whose ids are distinct, filtering out one present id drops
exactly one element. -/
theorem filter_id_length (i : String) (x : HistoryItem) (hxi : x.id = i) :
    ∀ (h : List HistoryItem), (h.map HistoryItem.id).Nodup → x ∈ h →
      (h.filter (fun y => y.id != i)).length + 1 = h.length := by
  intro h
  induction h with
  | nil => intro _ hx; cases hx
  | cons a t ih =>
      intro hnd hx
      rw [List.map_cons, List.nodup_cons] at hnd
      rcases List.mem_cons.mp hx with heq | hxt
      · subst heq
        rw [List.filter_cons_of_neg (by simp [hxi])]
        have hall : ∀ y ∈ t, (y.id != i) = true := by
          intro y hy
          have hne2 : y.id ≠ i := by
            intro he
            apply hnd.1
            have hay : x.id = y.id := by rw [hxi, he]
            rw [hay]
            exact List.mem_map_of_mem HistoryItem.id hy
          simpa using hne2
        rw [List.filter_eq_self.mpr hall, List.length_cons]
      · have hane : (a.id != i) = true := by
          have hne2 : a.id ≠ i := by
            intro he
            apply hnd.1
            rw [he, ← hxi]
            exact List.mem_map_of_mem HistoryItem.id hxt
          simpa using hne2
        simp only [List.filter_cons, hane, if_true, List.length_cons]
        have := ih hnd.2 hxt
        omega

/-- Claim C8: on a history with distinct ids, handleClearHistoryItem removes
exactly the entry whose id matches, keeps all other entries in order, and is
a no-op when no entry has the id. -/
theorem deleteHistoryItem_spec (h : List HistoryItem) (i : String)
    (hnd : (h.map HistoryItem.id).Nodup) :
    (handleClearHistoryItem i h).Sublist h ∧
    (∀ y ∈ h, y.id ≠ i → y ∈ handleClearHistoryItem i h) ∧
    ((∀ y ∈ h, y.id ≠ i) → handleClearHistoryItem i h = h) ∧
    (∀ x ∈ h, x.id = i →
      x ∉ handleClearHistoryItem i h ∧
      (handleClearHistoryItem i h).length + 1 = h.length) := by
  refine ⟨List.filter_sublist h, ?_, ?_, ?_⟩
  · intro y hy hne
    exact List.mem_filter.mpr ⟨hy, by simpa using hne⟩
  · intro hall
    exact List.filter_eq_self.mpr (fun y hy => by simpa using hall y hy)
  · intro x hx hxi
    constructor
    · intro hmem
      have := (List.mem_filter.mp hmem).2
      rw [hxi] at this
      simp at this
    · exact filter_id_length i x hxi h hnd hx

/-- Concrete two-item history with distinct ids for the delete witness. -/
def twoItems : List HistoryItem :=
  [⟨"a", "p", 1, "u", "t", "g"⟩, ⟨"b", "q", 2, "v", "w", "h"⟩]

/-- Witness for claim C8 on a concrete two-item history. -/
theorem deleteHistoryItem_spec_witness :
    (twoItems.map HistoryItem.id).Nodup ∧
    ((handleClearHistoryItem "a" twoItems).Sublist twoItems ∧
     (∀ y ∈ twoItems, y.id ≠ "a" → y ∈ handleClearHistoryItem "a" twoItems) ∧
     ((∀ y ∈ twoItems, y.id ≠ "a") → handleClearHistoryItem "a" twoItems = twoItems) ∧
     (∀ x ∈ twoItems, x.id = "a" →
       x ∉ handleClearHistoryItem "a" twoItems ∧
       (handleClearHistoryItem "a" twoItems).length + 1 = twoItems.length)) :=
  ⟨by decide, deleteHistoryItem_spec twoItems "a" (by decide)⟩

/-- Number of dash characters in a string. -/
def countDash (s : String) : Nat := s.data.count '-'

/-- Dash counting distributes over string append. -/
theorem countDash_append (a b : String) :
    countDash (a ++ b) = countDash a + countDash b := by
  show ((a ++ b).data).count '-' = a.data.count '-' + b.data.count '-'
  rw [show (a ++ b).data = a.data ++ b.data from rfl, List.count_append]

/-- A date-derived client code always holds at least three dashes, the admin
code only two, so no choice of secret or date collides with the admin code. -/
theorem getClientCode_ne_admin (secret : String) (d m y : Nat) :
    getClientCode secret d m y ≠ ADMIN_CODE := by
  intro h
  have hc := congrArg countDash h
  rw [getClientCode] at hc
  rw [countDash_append, countDash_append, countDash_append, countDash_append,
      countDash_append, countDash_append] at hc
  have hdash : countDash "-" = 1 := by decide
  have hadmin : countDash ADMIN_CODE = 2 := by decide
  rw [hdash, hadmin] at hc
  omega

/-- Claim C4: submitting the secret-and-current-date client code grants
client level, the fixed admin code grants admin level, and any other string
is rejected with the visible error message, leaving access at none. -/
theorem accessGate_spec (settings : AdminSettings) (day month year : Nat)
    (code : String) :
    (code = getClientCode settings.accessSecret day month year →
      handleSubmitGate code settings day month year = .granted .client) ∧
    (code = ADMIN_CODE →
      handleSubmitGate code settings day month year = .granted .admin) ∧
    (code ≠ ADMIN_CODE →
      code ≠ getClientCode settings.accessSecret day month year →
      handleSubmitGate code settings day month year
        = .rejected "Invalid access code.") := by
  refine ⟨?_, ?_, ?_⟩
  · intro hc
    have hne : code ≠ ADMIN_CODE := by
      rw [hc]
      exact getClientCode_ne_admin settings.accessSecret day month year
    rw [handleSubmitGate, if_neg hne, if_pos hc]
  · intro hc
    rw [handleSubmitGate, if_pos hc]
  · intro h1 h2
    rw [handleSubmitGate, if_neg h1, if_neg h2]

/-- Witness for claim C4: the client code of a concrete secret and date is
accepted at client level. -/
theorem accessGate_spec_witness :
    handleSubmitGate (getClientCode "CLIENT" 5 3 2026) ⟨"CLIENT", true⟩ 5 3 2026
      = .granted .client :=
  (accessGate_spec ⟨"CLIENT", true⟩ 5 3 2026 (getClientCode "CLIENT" 5 3 2026)).1 rfl

/-- Claim C10: with the gate disabled, the guest button is available and
grants client level with no code; with the gate enabled, every available
gate action that grants a level is a code submission whose code is the
admin code or the date-derived client code. -/
theorem gate_guest_spec (settings : AdminSettings) (day month year : Nat) :
    (settings.isGateEnabled = false →
      gateActionAvailable settings .continueAsGuest = true ∧
      gateOutcome settings day month year .continueAsGuest
        = .granted .client) ∧
    (settings.isGateEnabled = true →
      ∀ (a : GateAction) (lvl : AccessLevel),
        gateActionAvailable settings a = true →
        gateOutcome settings day month year a = .granted lvl →
        ∃ code, a = .submitCode code ∧
          (code = ADMIN_CODE ∨
           code = getClientCode settings.accessSecret day month year)) := by
  constructor
  · intro hg
    exact ⟨by simp [gateActionAvailable, hg], rfl⟩
  · intro hg a lvl hav hout
    cases a with
    | continueAsGuest =>
        simp [gateActionAvailable, hg] at hav
    | submitCode code =>
        refine ⟨code, rfl, ?_⟩
        by_cases h1 : code = ADMIN_CODE
        · exact Or.inl h1
        · right
          by_cases h2 : code = getClientCode settings.accessSecret day month year
          · exact h2
          · rw [show gateOutcome settings day month year (.submitCode code)
                  = handleSubmitGate code settings day month year from rfl,
                handleSubmitGate, if_neg h1, if_neg h2] at hout
            exact absurd hout (by simp)

/-- Witness for claim C10: with a concrete disabled gate the guest button is
available and grants client level. -/
theorem gate_guest_spec_witness :
    gateActionAvailable ⟨"CLIENT", false⟩ .continueAsGuest = true ∧
    gateOutcome ⟨"CLIENT", false⟩ 1 2 2026 .continueAsGuest = .granted .client :=
  (gate_guest_spec ⟨"CLIENT", false⟩ 1 2 2026).1 rfl
